import Mathlib

/-!
# Verification of the Astra report scheduling/execution logic

Shallow embedding of the report-configuration store, the report-execution
trigger and the next-run-time calculator of the Astra client, together with
the serverless `generate-report` function.

Modelling conventions:

* Instants are integer minutes since the Unix epoch.  The JavaScript runtime's
  local timezone is taken to be UTC (the deployment-neutral reading, and the
  only one under which the source's `Date` component arithmetic round-trips
  exactly); under that reading `setHours`/`setDate`/`getDay`/`toISOString`
  are pure civil-calendar arithmetic, embedded below via the standard
  days-from-civil / civil-from-days algorithms.
* Database tables are lists of rows; a Supabase `.eq(...)` chain is the
  corresponding boolean filter; `.single()` succeeds exactly on a one-row
  result set.
* Network and storage outcomes (webhook response, insert success) are
  explicit parameters, so each operation is a pure function from its inputs
  and the environment's responses to its new state and the list of side
  effects it issued.
-/

namespace Astra

/-! ## Civil calendar arithmetic (JS `Date` component arithmetic, local = UTC) -/

/-- Days since 1970-01-01 of the civil date `y-m-d` (proleptic Gregorian).
Standard era-based algorithm. -/
def daysFromCivil (y : Int) (m d : Nat) : Int :=
  let y' : Int := if m ≤ 2 then y - 1 else y
  let era : Int := y' / 400
  let yoe : Nat := (y' - era * 400).toNat
  let mp : Nat := if 2 < m then m - 3 else m + 9
  let doy : Nat := (153 * mp + 2) / 5 + d - 1
  let doe : Nat := yoe * 365 + yoe / 4 - yoe / 100 + doy
  era * 146097 + (doe : Int) - 719468

/-- Civil date `(year, month, day)` of a count of days since 1970-01-01. -/
def civilFromDays (z : Int) : Int × Nat × Nat :=
  let zz : Int := z + 719468
  let era : Int := zz / 146097
  let doe : Nat := (zz - era * 146097).toNat
  let yoe : Nat := (doe - doe / 1460 + doe / 36524 - doe / 146096) / 365
  let doy : Nat := doe - (365 * yoe + yoe / 4 - yoe / 100)
  let mp : Nat := (5 * doy + 2) / 153
  let d : Nat := doy - (153 * mp + 2) / 5 + 1
  let m : Nat := if mp < 10 then mp + 3 else mp - 9
  let y : Int := (yoe : Int) + era * 400
  (if m ≤ 2 then y + 1 else y, m, d)

/-- JS `Date.prototype.getDay` of a day count: 0 = Sunday … 6 = Saturday
(1970-01-01 was a Thursday). -/
def weekdayFromDays (z : Int) : Nat :=
  ((z + 4) % 7).toNat

/-- `getFullYear` of an instant given in minutes since the epoch. -/
def yearOfMinutes (t : Int) : Int :=
  (civilFromDays (t / 1440)).1

/-- Decimal digit characters of a positive number, most significant first
(fuel bounds the digit count). -/
def natDigitsAux : Nat → Nat → List Char
  | 0, _ => []
  | _, 0 => []
  | fuel + 1, n => natDigitsAux fuel (n / 10) ++ [Char.ofNat (48 + n % 10)]

/-- Decimal rendering of a natural number. -/
def natToString (n : Nat) : String :=
  if n = 0 then "0" else String.mk (natDigitsAux 30 n)

/-- Decimal rendering of an integer. -/
def intToString (i : Int) : String :=
  if i < 0 then "-" ++ natToString i.natAbs else natToString i.natAbs

/-- Zero-padded two-digit rendering. -/
def pad2 (n : Nat) : String :=
  if n < 10 then "0" ++ natToString n else natToString n

/-- `Date.prototype.toISOString` of an instant in minutes since the epoch
(seconds and milliseconds are zero for every instant the code constructs). -/
def isoOfMinutes (t : Int) : String :=
  let day : Int := t / 1440
  let tod : Nat := (t - day * 1440).toNat
  let c := civilFromDays day
  intToString c.1 ++ "-" ++ pad2 c.2.1 ++ "-" ++ pad2 c.2.2 ++ "T" ++
    pad2 (tod / 60) ++ ":" ++ pad2 (tod % 60) ++ ":00.000Z"

/-! ## Next-run-time calculator (src/unnamed/part_003, lines 634-699) -/

/-- Value of a list of decimal digit characters. -/
def digitsToNat (cs : List Char) : Nat :=
  cs.foldl (fun acc c => acc * 10 + (c.toNat - 48)) 0

/-- `String.split(':')` on the underlying characters. -/
def splitColonAux : List Char → List Char → List (List Char)
  | [], acc => [acc.reverse]
  | c :: cs, acc =>
    if c = ':' then acc.reverse :: splitColonAux cs []
    else splitColonAux cs (c :: acc)

/-- `Number(chunk)` restricted to the non-negative integral chunks the
schedule field contains; `none` is JS `NaN`, which poisons the calculation
(`Invalid Date`, `toISOString` throws).  `Number("") = 0` as in JS. -/
def jsNumberNat (cs : List Char) : Option Nat :=
  if cs = [] then some 0
  else if cs.all Char.isDigit then some (digitsToNat cs) else none

/-- `scheduleTime.split(':').map(Number)` destructured into `[hours, minutes]`
(src/unnamed/part_003 line 637).  `none` when either component is `NaN`
or fewer than two components exist (the destructured `minutes` would be
`undefined`, i.e. `NaN`). -/
def parseScheduleTime (s : String) : Option (Nat × Nat) :=
  match (splitColonAux s.data []).map jsNumberNat with
  | some h :: some m :: _ => some (h, m)
  | _ => none

/-- The day number (`setDate` result, as days since the epoch) the source
computes for the "second Sunday in March" of `year`
(src/unnamed/part_003 lines 691-692):
`new Date(year, 2, 1)` then `setDate(1 + (7 - getDay()) + 7)`. -/
def marchSecondSundayCode (year : Int) : Int :=
  let mar1 := daysFromCivil year 3 1
  let dow := weekdayFromDays mar1
  mar1 + ((1 + (7 - dow) + 7) - 1 : Nat)

/-- The day number the source computes for the "first Sunday in November" of
`year` (src/unnamed/part_003 lines 695-696):
`new Date(year, 10, 1)` then `setDate(1 + (7 - getDay()) % 7)`. -/
def novemberFirstSundayCode (year : Int) : Int :=
  let nov1 := daysFromCivil year 11 1
  let dow := weekdayFromDays nov1
  nov1 + ((1 + (7 - dow) % 7) - 1 : Nat)

/-- `isEasternDaylightTime` (src/unnamed/part_003 lines 686-699): the instant
(minutes since epoch, civil wall-clock reading) is at or after the computed
March boundary midnight and strictly before the computed November boundary
midnight, both taken in the instant's own year. -/
def isEasternDaylightTime (t : Int) : Bool :=
  let year := yearOfMinutes t
  marchSecondSundayCode year * 1440 ≤ t ∧ t < novemberFirstSundayCode year * 1440

/-- The storage offset the source adds to the civil candidate
(src/unnamed/part_003 lines 673-675): 4 hours when the candidate date is
judged to be in EDT, 5 hours otherwise, in minutes. -/
def storageOffsetMinutes (cand : Int) : Int :=
  if isEasternDaylightTime cand then 240 else 300

/-- Core of `calculateNextRunTime` (src/unnamed/part_003 lines 654-682) after
the schedule string has been parsed: `nowEastern` is the current Eastern
wall-clock time in minutes (the source's `nowInEastern`); the candidate is
today at `h:m`, advanced one civil day when it is not strictly in the
future; the result is the candidate plus the storage offset evaluated on the
candidate itself. -/
def calcNextRunCore (nowEastern : Int) (h m : Nat) : Int :=
  let todayEastern : Int := nowEastern / 1440 * 1440 + (h * 60 + m : Nat)
  let cand : Int := if todayEastern ≤ nowEastern then todayEastern + 1440 else todayEastern
  cand + storageOffsetMinutes cand

/-- `calculateNextRunTime` (src/unnamed/part_003 lines 634-683): parse the
`HH:MM` schedule string and return the stored ISO instant; `none` models the
`Invalid Date` exception on an unparsable schedule string. -/
def calculateNextRunTime (nowEastern : Int) (scheduleTime : String) : Option String :=
  (parseScheduleTime scheduleTime).map fun p =>
    isoOfMinutes (calcNextRunCore nowEastern p.1 p.2)

/-! Specification-side civil-time notions for the calculator claims. -/

/-- The claim's "today's date at HH:MM civil time", for a current Eastern civil
time of `nowEastern` minutes. -/
def civilTodayAt (nowEastern : Int) (h m : Nat) : Int :=
  nowEastern / 1440 * 1440 + (h * 60 + m : Nat)

/-- The claim's candidate civil instant: today at the schedule time when that
is still strictly in the future, otherwise tomorrow at the schedule time. -/
def specCandidate (nowEastern : Int) (h m : Nat) : Int :=
  if nowEastern < civilTodayAt nowEastern h m then civilTodayAt nowEastern h m
  else civilTodayAt nowEastern h m + 1440

/-- The actual second Sunday in March of `year`, as a day count, following the
spec's (and the source comment's) words. -/
def secondSundayInMarchSpec (year : Int) : Int :=
  let mar1 := daysFromCivil year 3 1
  mar1 + ((7 - weekdayFromDays mar1) % 7 : Nat) + 7

/-- The actual first Sunday in November of `year`, as a day count. -/
def firstSundayInNovemberSpec (year : Int) : Int :=
  let nov1 := daysFromCivil year 11 1
  nov1 + ((7 - weekdayFromDays nov1) % 7 : Nat)

/-- The spec's rule for Eastern Daylight Time: from the second Sunday in March
to the first Sunday in November of the instant's year. -/
def isEDTSpec (t : Int) : Bool :=
  let year := yearOfMinutes t
  secondSundayInMarchSpec year * 1440 ≤ t ∧ t < firstSundayInNovemberSpec year * 1440

/-! ## JSON values and `JSON.parse` (for the webhook response handling) -/

/-- A JSON value as produced by `JSON.parse`.  A numeric literal denotes the
exact value `m / 10 ^ k` (scaled-integer representation; every JSON
literal denotes such a value). -/
inductive Json where
  | null
  | bool (b : Bool)
  | num (m : Int) (k : Nat)
  | str (s : String)
  | arr (elems : List Json)
  | obj (fields : List (String × Json))

/-- JS truthiness of a parsed JSON value (`if (jsonResponse.output)`):
`null`, `false`, `0` and `""` are falsy; arrays and objects are truthy. -/
def jsTruthy : Json → Bool
  | .null => false
  | .bool b => b
  | .num m _ => !(m == 0)
  | .str s => !(s == "")
  | .arr _ => true
  | .obj _ => true

/-- Cancel common factors of ten from a scaled-integer number `m / 10 ^ k`
(the fuel `k` itself bounds the cancellations). -/
def stripTenFactors : Nat → Int → Nat → Int × Nat
  | 0, m, k => (m, k)
  | _, m, 0 => (m, 0)
  | fuel + 1, m, k + 1 =>
    if m % 10 = 0 then stripTenFactors fuel (m / 10) k else (m, k + 1)

/-- Decimal digits of `r`, left-padded with zeros to width `k`. -/
def padLeftZeros (k : Nat) (r : Nat) : String :=
  let ds := natDigitsAux 30 r
  String.mk (List.replicate (k - ds.length) '0' ++ ds)

/-- JS `String(n)` for a parsed JSON number `m / 10 ^ k`: sign, integer part,
and the minimal terminating decimal expansion of the fractional part. -/
def jsNumToString (m0 : Int) (k0 : Nat) : String :=
  let p := stripTenFactors k0 m0 k0
  let sign := if p.1 < 0 then "-" else ""
  let n := p.1.natAbs
  if p.2 = 0 then sign ++ natToString n
  else sign ++ natToString (n / 10 ^ p.2) ++ "." ++ padLeftZeros p.2 (n % 10 ^ p.2)

mutual

/-- Fueled JS string coercion (see `jsToString`): identity on strings,
`Array.prototype.toString` (comma-joined, `null` rendered empty) on arrays,
`[object Object]` on plain objects. -/
def jsToStringF : Nat → Json → String
  | 0, _ => ""
  | fuel + 1, j =>
    match j with
    | .null => "null"
    | .bool true => "true"
    | .bool false => "false"
    | .num m k => jsNumToString m k
    | .str s => s
    | .arr xs => jsArrStringF fuel xs
    | .obj _ => "[object Object]"

/-- Comma join of array elements under JS `Array.prototype.toString`
(`null` elements render empty under `Array.prototype.join`). -/
def jsArrStringF : Nat → List Json → String
  | 0, _ => ""
  | _, [] => ""
  | fuel + 1, [x] =>
    (match x with
     | .null => ""
     | _ => jsToStringF fuel x)
  | fuel + 1, x :: xs =>
    (match x with
     | .null => ""
     | _ => jsToStringF fuel x) ++ "," ++ jsArrStringF fuel xs

end

/-- JS string coercion applied when a runtime value reaches a text column.
The fuel only bounds the total size of nested arrays (1000, far beyond
anything a parsed webhook response produces). -/
def jsToString (j : Json) : String :=
  jsToStringF 1000 j

/-- Skip JSON whitespace. -/
def skipWs : List Char → List Char
  | c :: cs => if c = ' ' ∨ c = '\t' ∨ c = '\n' ∨ c = '\r' then skipWs cs else c :: cs
  | [] => []

/-- Parse the body of a JSON string literal after the opening quote, handling
the standard escapes; fails on control characters or bad escapes, as
`JSON.parse` does. -/
def parseStringBody : Nat → List Char → Option (String × List Char)
  | 0, _ => none
  | _, [] => none
  | fuel + 1, c :: cs =>
    if c = '"' then some ("", cs)
    else if c = '\\' then
      match cs with
      | [] => none
      | e :: cs' =>
        let simple : Option Char :=
          if e = '"' then some '"'
          else if e = '\\' then some '\\'
          else if e = '/' then some '/'
          else if e = 'b' then some (Char.ofNat 8)
          else if e = 'f' then some (Char.ofNat 12)
          else if e = 'n' then some '\n'
          else if e = 'r' then some '\r'
          else if e = 't' then some '\t'
          else none
        match simple with
        | some ch =>
          (parseStringBody fuel cs').map fun p => (ch.toString ++ p.1, p.2)
        | none =>
          if e = 'u' then
            match cs' with
            | h1 :: h2 :: h3 :: h4 :: cs'' =>
              let isHex : Char → Bool := fun c =>
                c.isDigit ∨ ('a' ≤ c ∧ c ≤ 'f') ∨ ('A' ≤ c ∧ c ≤ 'F')
              let hexVal : Char → Nat := fun c =>
                if c.isDigit then c.toNat - 48
                else if 'a' ≤ c then c.toNat - 87 else c.toNat - 55
              if isHex h1 ∧ isHex h2 ∧ isHex h3 ∧ isHex h4 then
                let v := ((hexVal h1 * 16 + hexVal h2) * 16 + hexVal h3) * 16 + hexVal h4
                (parseStringBody fuel cs'').map fun p => ((Char.ofNat v).toString ++ p.1, p.2)
              else none
            | _ => none
          else none
    else if c.toNat < 32 then none
    else (parseStringBody fuel cs).map fun p => (c.toString ++ p.1, p.2)

/-- Digits prefix of a character list. -/
def takeDigits : List Char → List Char × List Char
  | c :: cs =>
    if c.isDigit then
      let p := takeDigits cs
      (c :: p.1, p.2)
    else ([], c :: cs)
  | [] => ([], [])

/-- Parse a JSON numeric literal (sign, integer part without leading zeros,
optional fraction, optional exponent) into its exact scaled-integer value
`m / 10 ^ k`. -/
def parseNumber (cs : List Char) : Option ((Int × Nat) × List Char) := do
  let (neg, cs) := match cs with
    | '-' :: rest => (true, rest)
    | _ => (false, cs)
  let (ip, cs) := takeDigits cs
  if ip = [] then none else
  if 1 < ip.length ∧ ip.headD ' ' = '0' then none else
  let (frOk, fr, cs) := match cs with
    | '.' :: rest =>
      let p := takeDigits rest
      if p.1 = [] then (false, [], rest) else (true, p.1, p.2)
    | _ => (true, [], cs)
  if !frOk then none else
  let (hasExp, expNeg, ex, cs) := match cs with
    | 'e' :: rest | 'E' :: rest =>
      match rest with
      | '+' :: rest' => let p := takeDigits rest'; (true, false, p.1, p.2)
      | '-' :: rest' => let p := takeDigits rest'; (true, true, p.1, p.2)
      | _ => let p := takeDigits rest; (true, false, p.1, p.2)
    | _ => (false, false, [], cs)
  if hasExp ∧ ex = [] then none else
  let m0 : Int := (digitsToNat (ip ++ fr) : Int)
  let k0 : Nat := fr.length
  let exN : Nat := digitsToNat ex
  let scaled : Int × Nat :=
    if hasExp then
      if expNeg then (m0, k0 + exN) else (m0 * 10 ^ exN, k0)
    else (m0, k0)
  some ((if neg then -scaled.1 else scaled.1, scaled.2), cs)

mutual

/-- Fueled recursive-descent parser for a JSON value; returns the value and
the unconsumed input. -/
def parseValue : Nat → List Char → Option (Json × List Char)
  | 0, _ => none
  | fuel + 1, cs =>
    match skipWs cs with
    | 'n' :: 'u' :: 'l' :: 'l' :: rest => some (.null, rest)
    | 't' :: 'r' :: 'u' :: 'e' :: rest => some (.bool true, rest)
    | 'f' :: 'a' :: 'l' :: 's' :: 'e' :: rest => some (.bool false, rest)
    | '"' :: rest => (parseStringBody (rest.length + 1) rest).map fun p => (.str p.1, p.2)
    | '[' :: rest =>
      (match skipWs rest with
       | ']' :: rest' => some (.arr [], rest')
       | rest' => parseElems fuel rest' [])
    | c :: rest =>
      if c = Char.ofNat 123 then
        match skipWs rest with
        | c' :: rest' =>
          if c' = Char.ofNat 125 then some (.obj [], rest')
          else parseMembers fuel (c' :: rest') []
        | [] => none
      else (parseNumber (c :: rest)).map fun p => (.num p.1.1 p.1.2, p.2)
    | [] => none

/-- Array elements, comma separated, accumulated in order. -/
def parseElems : Nat → List Char → List Json → Option (Json × List Char)
  | 0, _, _ => none
  | fuel + 1, cs, acc => do
    let (v, rest) ← parseValue fuel cs
    match skipWs rest with
    | ',' :: rest' => parseElems fuel rest' (acc ++ [v])
    | ']' :: rest' => some (.arr (acc ++ [v]), rest')
    | _ => none

/-- Object members, comma separated, accumulated in order. -/
def parseMembers : Nat → List Char → List (String × Json) → Option (Json × List Char)
  | 0, _, _ => none
  | fuel + 1, cs, acc => do
    match skipWs cs with
    | '"' :: rest =>
      let (k, rest) ← parseStringBody (rest.length + 1) rest
      match skipWs rest with
      | ':' :: rest' => do
        let (v, rest'') ← parseValue fuel rest'
        match skipWs rest'' with
        | ',' :: rest3 => parseMembers fuel rest3 (acc ++ [(k, v)])
        | c :: rest3 =>
          if c = Char.ofNat 125 then some (.obj (acc ++ [(k, v)]), rest3)
          else none
        | [] => none
      | _ => none
    | _ => none

end

/-- `JSON.parse`: parse the whole string as one JSON value (only whitespace
may follow); `none` models the thrown `SyntaxError`. -/
def parseJson (s : String) : Option Json := do
  let (v, rest) ← parseValue (2 * s.length + 2) s.data
  match skipWs rest with
  | [] => some v
  | _ => none

/-- JS member access `j.output`-style on a parsed value: `undefined` (`none`)
unless the value is an object owning the key; on duplicate keys
`JSON.parse` keeps the last occurrence. -/
def objGet (j : Json) (k : String) : Option Json :=
  match j with
  | .obj fields => (fields.reverse.find? (fun p => p.1 == k)).map (·.2)
  | _ => none

/-- The report text extracted from the webhook response body
(src/src/hooks/useReports.ts lines 414-435): start from the raw body; if it
parses as JSON and its `output` member is truthy, that member (coerced to
text at the database boundary) replaces the raw body. -/
def reportContentOf (responseText : String) : String :=
  match (parseJson responseText).bind (fun j => objGet j "output") with
  | some v => if jsTruthy v then jsToString v else responseText
  | none => responseText

/-! ## Data model (src/src/hooks/useReports.ts lines 18-33) -/

/-- `schedule_type`: enum over the two literal types. -/
inductive ScheduleType where
  | manual
  | scheduled
deriving DecidableEq, Repr

/-- A `UserReport` row of the `astra_reports` table (a.k.a. `ReportConfig`).
`visualization_mode` is read (untyped) by the serverless function and absent
from the client interface, hence optional. -/
structure UserReport where
  id : String
  user_id : String
  report_template_id : Option String := none
  title : String
  prompt : String
  schedule_type : ScheduleType
  schedule_frequency : String
  schedule_time : String
  is_active : Bool
  last_run_at : Option String := none
  next_run_at : Option String := none
  created_at : String := ""
  updated_at : String := ""
  visualization_mode : Option String := none
deriving DecidableEq, Repr

/-- The authenticated user as the hooks see it. -/
structure UserInfo where
  id : String
  email : String
deriving DecidableEq, Repr

/-- A row of the `astra_chats` table, restricted to the columns the claims
mention. -/
structure ChatRow where
  id : String
  user_id : String
  mode : String
  message_type : String
  message : String
deriving DecidableEq, Repr

/-- A webhook `fetch` response: HTTP status data and the raw text body. -/
structure WebhookResp where
  ok : Bool
  status : Nat
  statusText : String := ""
  body : String := ""
deriving DecidableEq, Repr

/-- Outcome of an awaited `fetch`: `.error msg` is a rejected promise
(network failure), `.ok` a settled response of any status. -/
abbrev FetchOutcome := Except String WebhookResp

/-! ## The in-memory running-set (`Set<string>` of report ids) -/

/-- `set.add(id)` on the JS `Set`, modelled as a duplicate-free list. -/
def addId (l : List String) (id : String) : List String :=
  if id ∈ l then l else l ++ [id]

/-- `set.delete(id)` on the JS `Set`. -/
def removeId (l : List String) (id : String) : List String :=
  l.filter (fun x => x ≠ id)

/-! ## Side effects issued by the execution trigger -/

/-- The observable external operations of a `runReportNow` invocation, with
the payload fields the claims mention. -/
inductive Effect where
  | webhookPost (chatInput : String) (user_id : String) (mode : String)
  | insertChat (user_id : String) (message : String) (message_type : String)
      (mode : String) (astra_prompt : String)
deriving DecidableEq, Repr

/-- Whether an effect persists a chat row. -/
def Effect.isInsert : Effect → Bool
  | .insertChat .. => true
  | _ => false

/-- Whether an effect is a webhook POST. -/
def Effect.isPost : Effect → Bool
  | .webhookPost .. => true
  | _ => false

/-- Result of one `runReportNow` invocation: the running-set and error string
after return, the external effects issued, and whether the call re-threw. -/
structure RunResult where
  running : List String
  error : Option String
  effects : List Effect
  threw : Bool
deriving DecidableEq, Repr

/-- `runReportNow` of src/src/hooks/useReports.ts (lines 343-491).  The id is
added to the running-set unconditionally (no membership check), the webhook
is POSTed, a non-ok status or network failure throws before any insert, a
2xx body is reduced via `reportContentOf` and persisted as one
`astra_chats` row, and the `finally` block removes the id in every path
that entered the `try`. -/
def runReportNow_main (user : Option UserInfo) (webhookConfigured : Bool)
    (userReports : List UserReport) (running : List String) (error0 : Option String)
    (id : String) (fetch : FetchOutcome) (insertErr : Option String) : RunResult :=
  match user with
  | none => ⟨running, error0, [], false⟩
  | some u =>
    match userReports.find? (fun r => r.id == id) with
    | none => ⟨running, some "Report not found", [], false⟩
    | some report =>
      let running1 := addId running id
      if !webhookConfigured then
        ⟨removeId running1 id,
         some "Failed to run report: N8N webhook URL not configured", [], true⟩
      else
        let postE := Effect.webhookPost report.prompt u.id "reports"
        match fetch with
        | .error msg =>
          ⟨removeId running1 id, some ("Failed to run report: " ++ msg), [postE], true⟩
        | .ok resp =>
          if !resp.ok then
            ⟨removeId running1 id,
             some ("Failed to run report: Failed to execute report: " ++
               natToString resp.status ++ " " ++ resp.statusText ++ " - " ++ resp.body),
             [postE], true⟩
          else
            let content := reportContentOf resp.body
            let insE := Effect.insertChat u.id content "astra" "reports" report.prompt
            match insertErr with
            | some msg =>
              ⟨removeId running1 id,
               some ("Failed to run report: Failed to save report: " ++ msg),
               [postE, insE], true⟩
            | none =>
              ⟨removeId running1 id, error0, [postE, insE], false⟩

/-- Result of one invocation of the part_002 `runReportNow`, whose boolean
return value reports success. -/
structure RunResult2 where
  running : List String
  error : Option String
  effects : List Effect
  returned : Bool
deriving DecidableEq, Repr

/-- `runReportNow` of src/unnamed/part_002 (lines 587-656).  This variant
checks the running-set before doing anything (lines 599-602): a call whose
id is already in flight returns `false` immediately with no side effects.
It never inserts a chat row itself (the external workflow persists the
execution). -/
def runReportNow_guarded (user : Option UserInfo) (webhookConfigured : Bool)
    (userReports : List UserReport) (running : List String) (error0 : Option String)
    (reportId : String) (fetch : FetchOutcome) : RunResult2 :=
  match user with
  | none => ⟨running, some "Webhook URL not configured", [], false⟩
  | some u =>
    if !webhookConfigured then
      ⟨running, some "Webhook URL not configured", [], false⟩
    else
      match userReports.find? (fun r => r.id == reportId) with
      | none => ⟨running, some "Report not found", [], false⟩
      | some report =>
        if reportId ∈ running then
          ⟨running, error0, [], false⟩
        else
          let running1 := addId running reportId
          let postE := Effect.webhookPost report.prompt u.id "reports"
          match fetch with
          | .error msg =>
            ⟨removeId running1 reportId,
             some ("Failed to run report: " ++ msg), [postE], false⟩
          | .ok resp =>
            if !resp.ok then
              ⟨removeId running1 reportId,
               some ("Failed to run report: Webhook request failed: " ++
                 natToString resp.status),
               [postE], false⟩
            else
              ⟨removeId running1 reportId, error0, [postE], true⟩

/-! ## Configuration store operations (src/src/hooks/useReports.ts) -/

/-- The `Partial<UserReport>` update object handed to `updateReport`; an outer
`none` is an absent key (`undefined`), which supabase-js drops from the
payload.  `next_run_at`/`last_run_at` are nullable columns, hence the inner
`Option`. -/
structure ReportUpdates where
  title : Option String := none
  prompt : Option String := none
  schedule_type : Option ScheduleType := none
  schedule_frequency : Option String := none
  schedule_time : Option String := none
  is_active : Option Bool := none
  last_run_at : Option (Option String) := none
  next_run_at : Option (Option String) := none
deriving DecidableEq, Repr

/-- JS truthiness of an optional string field (`undefined` and `""` falsy). -/
def strTruthy : Option String → Bool
  | some s => !(s == "")
  | none => false

/-- JS `a || b` for an optional string against a fallback. -/
def jsOrStr (a : Option String) (b : String) : String :=
  match a with
  | some s => if s == "" then b else s
  | none => b

/-- The inline next-run computation of `createReport`/`updateReport`
(src/src/hooks/useReports.ts lines 110-123 and 178-191): `new Date()` at the
schedule's hour/minute in the runtime's local timezone, advanced one day
when not strictly in the future; `nowUtc` is in minutes. -/
def calcNextRunLocal (nowUtc : Int) (h m : Nat) : Int :=
  let nextRun : Int := nowUtc / 1440 * 1440 + (h * 60 + m : Nat)
  if nextRun ≤ nowUtc then nextRun + 1440 else nextRun

/-- The recompute condition of `updateReport`
(src/src/hooks/useReports.ts line 173): the update object itself carries
`schedule_type === 'scheduled'` and a truthy `schedule_frequency` or
`schedule_time`. -/
def updateRecomputes (upd : ReportUpdates) : Bool :=
  upd.schedule_type == some ScheduleType.scheduled &&
    (strTruthy upd.schedule_frequency || strTruthy upd.schedule_time)

/-- The `next_run_at` key of the update payload: the freshly computed ISO
instant when the recompute condition holds and the report is found locally
(an unparsable schedule string is the thrown `Invalid Date`, outer `none`);
otherwise whatever `updates.next_run_at` held (absent key when `none`,
which leaves the column unchanged). -/
def updateNextRunField (userReports : List UserReport) (id : String)
    (upd : ReportUpdates) (nowUtc : Int) : Option (Option (Option String)) :=
  if updateRecomputes upd then
    match userReports.find? (fun r => r.id == id) with
    | some cur =>
      match parseScheduleTime (jsOrStr upd.schedule_time cur.schedule_time) with
      | some p => some (some (some (isoOfMinutes (calcNextRunLocal nowUtc p.1 p.2))))
      | none => none
    | none => some upd.next_run_at
  else some upd.next_run_at

/-- Application of the update payload to a matched row: provided keys
overwrite, `next_run_at` follows the computed payload key, `updated_at` is
stamped. -/
def applyReportUpdates (r : UserReport) (upd : ReportUpdates)
    (nextRunField : Option (Option String)) (nowIso : String) : UserReport :=
  { r with
    title := upd.title.getD r.title
    prompt := upd.prompt.getD r.prompt
    schedule_type := upd.schedule_type.getD r.schedule_type
    schedule_frequency := upd.schedule_frequency.getD r.schedule_frequency
    schedule_time := upd.schedule_time.getD r.schedule_time
    is_active := upd.is_active.getD r.is_active
    last_run_at := upd.last_run_at.getD r.last_run_at
    next_run_at := match nextRunField with
      | some v => v
      | none => r.next_run_at
    updated_at := nowIso }

/-- Result of `updateReport`: the table after the scoped update, and whether
the operation completed (rather than aborting in the catch block). -/
structure UpdateResult where
  reports : List UserReport
  ok : Bool
deriving DecidableEq, Repr

/-- `updateReport(id, updates)` (src/src/hooks/useReports.ts lines 165-233):
no-op without a user; compute the `next_run_at` payload key; apply the
payload to exactly the rows matching both `id` and the caller's user id. -/
def updateReportOp (user : Option UserInfo) (userReports : List UserReport)
    (id : String) (upd : ReportUpdates) (nowUtc : Int) (nowIso : String) : UpdateResult :=
  match user with
  | none => ⟨userReports, false⟩
  | some u =>
    match updateNextRunField userReports id upd nowUtc with
    | none => ⟨userReports, false⟩
    | some fld =>
      ⟨userReports.map fun r =>
        if r.id == id && r.user_id == u.id then applyReportUpdates r upd fld nowIso else r,
       true⟩

/-- `toggleReportActive(id, isActive)` (src/src/hooks/useReports.ts lines
265-267): `updateReport` restricted to the `is_active` key. -/
def toggleReportActive (user : Option UserInfo) (userReports : List UserReport)
    (id : String) (isActive : Bool) (nowUtc : Int) (nowIso : String) : UpdateResult :=
  updateReportOp user userReports id { is_active := some isActive } nowUtc nowIso

/-- `deleteReport(id)` (src/src/hooks/useReports.ts lines 236-262): delete
exactly the rows matching both `id` and the caller's user id. -/
def deleteReportOp (user : Option UserInfo) (userReports : List UserReport)
    (id : String) : List UserReport :=
  match user with
  | none => userReports
  | some u => userReports.filter fun r => !(r.id == id && r.user_id == u.id)

/-- `deleteReportMessage(messageId)` (src/src/hooks/useReports.ts lines
313-340): delete exactly the chat rows matching the id, the caller's user
id, and `mode = 'reports'`. -/
def deleteReportMessage (user : Option UserInfo) (chats : List ChatRow)
    (messageId : String) : List ChatRow :=
  match user with
  | none => chats
  | some u =>
    chats.filter fun c => !(c.id == messageId && c.user_id == u.id && c.mode == "reports")

/-- `checkScheduledReports` (src/src/hooks/useReports.ts lines 306-310),
invoked every 60 seconds by `ReportsView` (ReportsView.tsx lines 40-46):
the body is a placeholder that only logs, so, whatever the current configs
are, it selects no config for automatic execution and triggers nothing. -/
def checkScheduledReports (userReports : List UserReport) : List UserReport :=
  []

/-! ## Serverless `generate-report` function
(src/supabase/functions/generate-report/index.ts) -/

/-- The POST request body. -/
structure GenRequest where
  userId : String
  reportId : String
  prompt : String
  visualizationMode : Option String := none
deriving DecidableEq, Repr

/-- The chat row the function inserts (lines 76-91), with its metadata
block. -/
structure GenChatInsert where
  user_id : String
  mode : String
  message : String
  message_type : String
  md_report_title : String
  md_report_schedule : String
  md_report_frequency : String
  md_is_manual_run : Bool
  md_executed_at : String
  md_visualization_mode : String
deriving DecidableEq, Repr

/-- Database operations the function issues. -/
inductive GenEffect where
  | insertChat (row : GenChatInsert)
  | updateLastRun (reportId : String) (lastRunAt : String)
deriving DecidableEq, Repr

/-- Whether a serverless effect persists a chat row. -/
def GenEffect.isInsert : GenEffect → Bool
  | .insertChat _ => true
  | _ => false

/-- Whether a serverless effect updates a report row. -/
def GenEffect.isUpdate : GenEffect → Bool
  | .updateLastRun .. => true
  | _ => false

/-- The HTTP response of the function. -/
structure GenResponse where
  status : Nat
  success : Bool
  error : Option String
deriving DecidableEq, Repr

/-- PostgREST `.single()`: succeeds exactly when the filtered result set has
one row. -/
def singleRow (l : List UserReport) : Option UserReport :=
  match l with
  | [r] => some r
  | _ => none

/-- The `Deno.serve` handler of generate-report/index.ts (lines 18-131) on a
POST request: configuration checks, the `(id, user_id)`-scoped report
lookup failing as "not found or access denied", the generative call
(`genOutcome`), one `astra_chats` insert tagged `mode='reports'`,
`message_type='astra'` with the metadata block, the unscoped-error
`last_run_at` update, and the `\x7bsuccess, error\x7d` JSON responses: 200
on success, 500 from the catch block on any thrown failure. -/
def generateReportHandler (hasSupabaseConfig hasGeminiKey : Bool)
    (reportsTable : List UserReport) (req : GenRequest)
    (genOutcome : Except String String) (insertErr : Option String)
    (nowIso : String) : GenResponse × List GenEffect :=
  if !hasSupabaseConfig then
    (⟨500, false, some "Missing Supabase configuration"⟩, [])
  else if !hasGeminiKey then
    (⟨500, false, some "VITE_GEMINI_API_KEY environment variable is not set."⟩, [])
  else
    match singleRow (reportsTable.filter fun r =>
        r.id == req.reportId && r.user_id == req.userId) with
    | none => (⟨500, false, some "Report not found or access denied"⟩, [])
    | some report =>
      match genOutcome with
      | .error e => (⟨500, false, some e⟩, [])
      | .ok reportText =>
        let row : GenChatInsert :=
          { user_id := req.userId
            mode := "reports"
            message := reportText
            message_type := "astra"
            md_report_title := report.title
            md_report_schedule := report.schedule_time
            md_report_frequency := report.schedule_frequency
            md_is_manual_run := true
            md_executed_at := nowIso
            md_visualization_mode :=
              jsOrStr req.visualizationMode (jsOrStr report.visualization_mode "text") }
        match insertErr with
        | some e =>
          (⟨500, false, some ("Failed to save report: " ++ e)⟩, [.insertChat row])
        | none =>
          (⟨200, true, none⟩, [.insertChat row, .updateLastRun req.reportId nowIso])

/-! ## Concrete fixtures for witnesses and counterexamples -/

/-- A sample authenticated user. -/
def sampleUser : UserInfo :=
  ⟨"u1", "u1@example.com"⟩

/-- A sample scheduled report owned by `sampleUser`, with a stored
`next_run_at`. -/
def sampleReport : UserReport :=
  { id := "r1"
    user_id := "u1"
    title := "Daily news"
    prompt := "Summarize the news"
    schedule_type := .scheduled
    schedule_frequency := "daily"
    schedule_time := "07:00"
    is_active := true
    next_run_at := some "2025-06-15T11:00:00.000Z" }

/-- A report owned by a different user. -/
def otherUserReport : UserReport :=
  { id := "r2"
    user_id := "u2"
    title := "Other report"
    prompt := "Other prompt"
    schedule_type := .manual
    schedule_frequency := "daily"
    schedule_time := "08:00"
    is_active := true }

/-- A successful webhook response with the given body. -/
def okResp (body : String) : WebhookResp :=
  { ok := true, status := 200, statusText := "OK", body := body }

/-- A failed (non-2xx) webhook response. -/
def errResp : WebhookResp :=
  { ok := false, status := 500, statusText := "Internal Server Error", body := "boom" }

/-- A sample chat-log table: a report message and a private message of
`sampleUser`, and a report message of another user. -/
def sampleChats : List ChatRow :=
  [⟨"m1", "u1", "reports", "astra", "report text"⟩,
   ⟨"m2", "u1", "private", "user", "private text"⟩,
   ⟨"m3", "u2", "reports", "astra", "another report"⟩]

/-! ## Shared helper lemmas -/

/-- A conditional rewrite leaves a filtered sublist untouched when it fixes
every element satisfying the filter and preserves the filter's verdict. -/
theorem filter_map_frame {α : Type} (p : α → Bool) (g : α → α) (l : List α)
    (h1 : ∀ a, p a = true → g a = a) (h2 : ∀ a, p (g a) = p a) :
    (l.map g).filter p = l.filter p := by
  induction l with
  | nil => rfl
  | cons x xs ih =>
    by_cases hx : p x = true
    · simp only [List.map_cons, List.filter_cons, h2, hx, if_pos, h1 x hx, ih]
    · have hx' : p x = false := by revert hx; cases p x <;> simp
      simp only [List.map_cons, List.filter_cons, h2, hx', Bool.false_eq_true,
        if_neg, ih, reduceIte]

/-- An element removed from the running-set is not in the result. -/
theorem removeId_not_mem (l : List String) (id : String) : id ∉ removeId l id := by
  unfold removeId
  intro h
  have := (List.mem_filter.mp h).2
  simp at this

/-! ## Claim theorems -/

/-- Claim C1 (amended): only the part_002 variant of `runReportNow` consults
the in-memory running-set: there, a second invocation whose config id is
already in flight is a no-op — it returns `false` immediately, issues no
webhook POST, persists nothing, and leaves the running-set and the error
state unchanged.  (The src/src/hooks/useReports.ts variant has no such
check; see the counterexample.) -/
theorem C1_second_invocation_noop (u : UserInfo) (userReports : List UserReport)
    (running : List String) (error0 : Option String) (reportId : String)
    (fetch : FetchOutcome) (report : UserReport)
    (hfind : userReports.find? (fun r => r.id == reportId) = some report)
    (hrun : reportId ∈ running) :
    runReportNow_guarded (some u) true userReports running error0 reportId fetch
      = ⟨running, error0, [], false⟩ := by
  unfold runReportNow_guarded
  simp [hfind, hrun]

/-- Witness for C1: a concrete second invocation while `r1` is in flight. -/
theorem C1_second_invocation_noop_witness :
    ([sampleReport].find? (fun r => r.id == "r1") = some sampleReport)
    ∧ ("r1" ∈ (["r1"] : List String))
    ∧ runReportNow_guarded (some sampleUser) true [sampleReport] ["r1"] none "r1"
        (.ok (okResp "body"))
      = ⟨["r1"], none, [], false⟩ :=
  ⟨by decide, by decide,
    C1_second_invocation_noop sampleUser [sampleReport] ["r1"] none "r1"
      (.ok (okResp "body")) sampleReport (by decide) (by decide)⟩

/-- Claim C1 counterexample: the `runReportNow` of src/src/hooks/useReports.ts
(the execution path the claim cites first) never consults the running-set,
so a second invocation whose id is already in flight still issues a second
webhook POST and persists a second execution row. -/
theorem C1_counterexample :
    ("r1" ∈ (["r1"] : List String))
    ∧ (runReportNow_main (some sampleUser) true [sampleReport] ["r1"] none "r1"
        (.ok (okResp "Hello")) none).effects
      = [Effect.webhookPost "Summarize the news" "u1" "reports",
         Effect.insertChat "u1" "Hello" "astra" "reports" "Summarize the news"] := by
  decide

/-- Claim C2: for every parsed schedule time, the calculator returns the
stored instant of the spec candidate — today at HH:MM civil when that is
strictly in the future, tomorrow at HH:MM otherwise — converted by the
candidate's own storage offset; the candidate is strictly in the future and
at most one civil day ahead. -/
theorem C2_next_run_time (nowEastern : Int) (s : String) (h m : Nat)
    (hp : parseScheduleTime s = some (h, m)) (hh : h < 24) (hm : m < 60) :
    calculateNextRunTime nowEastern s
        = some (isoOfMinutes (specCandidate nowEastern h m
            + storageOffsetMinutes (specCandidate nowEastern h m)))
    ∧ nowEastern < specCandidate nowEastern h m
    ∧ specCandidate nowEastern h m ≤ nowEastern + 1440 := by
  refine ⟨?_, ?_, ?_⟩
  · unfold calculateNextRunTime
    rw [hp, Option.map_some']
    simp only [calcNextRunCore, specCandidate, civilTodayAt]
    rcases le_or_lt (nowEastern / 1440 * 1440 + ((h * 60 + m : Nat) : Int)) nowEastern
      with hle | hgt
    · rw [if_pos hle, if_neg (not_lt.mpr hle)]
    · rw [if_neg (not_le.mpr hgt), if_pos hgt]
  · unfold specCandidate civilTodayAt
    split
    · omega
    · omega
  · unfold specCandidate civilTodayAt
    split
    · omega
    · omega

/-- Witness for C2: with schedule "07:00" and now 06:00 Eastern on
2025-06-15 the calculator stores today 07:00 EDT = 11:00 UTC; with now
08:00 Eastern it stores tomorrow 07:00 EDT. -/
theorem C2_next_run_time_witness :
    (parseScheduleTime "07:00" = some (7, 0))
    ∧ calculateNextRunTime (daysFromCivil 2025 6 15 * 1440 + 6 * 60) "07:00"
        = some "2025-06-15T11:00:00.000Z"
    ∧ calculateNextRunTime (daysFromCivil 2025 6 15 * 1440 + 8 * 60) "07:00"
        = some "2025-06-16T11:00:00.000Z" := by
  refine ⟨by decide, ?_, ?_⟩
  · have h := C2_next_run_time (daysFromCivil 2025 6 15 * 1440 + 6 * 60) "07:00" 7 0
      (by decide) (by decide) (by decide)
    rw [h.1]
    decide
  · have h := C2_next_run_time (daysFromCivil 2025 6 15 * 1440 + 8 * 60) "07:00" 7 0
      (by decide) (by decide) (by decide)
    rw [h.1]
    decide

/-- Claim C6 (code-bug evidence): the code evaluates the offset on the
candidate's own date, but its "second Sunday in March" formula is wrong
whenever March 1 falls on a Sunday.  In 2026 the second Sunday is March 8,
yet the code computes March 15, judges 2026-03-10 to be EST, and stores
07:00 Eastern as 12:00Z (+5h) where the spec's rule — and the source's own
comment — require 11:00Z (+4h). -/
theorem C6_dst_offset_bug :
    weekdayFromDays (daysFromCivil 2026 3 1) = 0
    ∧ marchSecondSundayCode 2026 = daysFromCivil 2026 3 15
    ∧ secondSundayInMarchSpec 2026 = daysFromCivil 2026 3 8
    ∧ isEDTSpec (daysFromCivil 2026 3 10 * 1440 + 7 * 60) = true
    ∧ isEasternDaylightTime (daysFromCivil 2026 3 10 * 1440 + 7 * 60) = false
    ∧ calculateNextRunTime (daysFromCivil 2026 3 10 * 1440 + 6 * 60) "07:00"
        = some "2026-03-10T12:00:00.000Z" := by
  decide

/-- Claim C3 (amended): a webhook body parsing as JSON with a truthy `output`
member — in particular any non-empty output string — persists exactly that
output; a body that does not parse persists the raw body verbatim; a
present but falsy `output` (e.g. the empty string) also falls back to the
raw body; and the execution path persists precisely `reportContentOf` of
the response body. -/
theorem C3_message_text (body : String) (j : Json) (s : String)
    (hparse : parseJson body = some j)
    (hout : objGet j "output" = some (Json.str s)) (hs : s ≠ "")
    (body2 : String) (hbad : parseJson body2 = none)
    (body3 : String) (j3 v3 : Json) (hp3 : parseJson body3 = some j3)
    (ho3 : objGet j3 "output" = some v3) (hf3 : jsTruthy v3 = false)
    (u : UserInfo) (userReports : List UserReport) (running : List String)
    (error0 : Option String) (id : String) (report : UserReport) (resp : WebhookResp)
    (hfind : userReports.find? (fun r => r.id == id) = some report)
    (hok : resp.ok = true) :
    reportContentOf body = s
    ∧ reportContentOf body2 = body2
    ∧ reportContentOf body3 = body3
    ∧ (runReportNow_main (some u) true userReports running error0 id (.ok resp) none).effects
        = [Effect.webhookPost report.prompt u.id "reports",
           Effect.insertChat u.id (reportContentOf resp.body) "astra" "reports"
             report.prompt] := by
  refine ⟨?_, ?_, ?_, ?_⟩
  · unfold reportContentOf
    rw [hparse]
    simp only [Option.bind]
    rw [hout]
    have ht : jsTruthy (Json.str s) = true := by simp [jsTruthy, hs]
    simp [ht, jsToString, jsToStringF]
  · unfold reportContentOf
    rw [hbad]
    rfl
  · unfold reportContentOf
    rw [hp3]
    simp only [Option.bind]
    rw [ho3]
    simp [hf3]
  · unfold runReportNow_main
    rw [hfind]
    simp [hok]

/-- Witness for C3: `\x7b"output":"X"\x7d` persists `X`; plain `Y` persists
`Y`; `\x7b"output":""\x7d` falls back to the raw body; the persisted row
carries the extracted content. -/
theorem C3_message_text_witness :
    reportContentOf "\x7b\"output\":\"X\"\x7d" = "X"
    ∧ reportContentOf "Y" = "Y"
    ∧ reportContentOf "\x7b\"output\":\"\"\x7d" = "\x7b\"output\":\"\"\x7d"
    ∧ (runReportNow_main (some sampleUser) true [sampleReport] [] none "r1"
        (.ok (okResp "\x7b\"output\":\"X\"\x7d")) none).effects
      = [Effect.webhookPost "Summarize the news" "u1" "reports",
         Effect.insertChat "u1"
           (reportContentOf (okResp "\x7b\"output\":\"X\"\x7d").body) "astra" "reports"
           "Summarize the news"] := by
  have h := C3_message_text "\x7b\"output\":\"X\"\x7d" (Json.obj [("output", Json.str "X")])
    "X" rfl rfl (by decide) "Y" rfl "\x7b\"output\":\"\"\x7d"
    (Json.obj [("output", Json.str "")]) (Json.str "") rfl rfl (by decide)
    sampleUser [sampleReport] [] none "r1" sampleReport
    (okResp "\x7b\"output\":\"X\"\x7d") (by decide) rfl
  exact h

/-- Claim C3 counterexample: the body parses as JSON and contains an `output`
field (the empty string), yet the persisted message text is the raw body,
not that output value — the source tests JS truthiness, not presence. -/
theorem C3_counterexample :
    parseJson "\x7b\"output\":\"\"\x7d" = some (Json.obj [("output", Json.str "")])
    ∧ reportContentOf "\x7b\"output\":\"\"\x7d" = "\x7b\"output\":\"\"\x7d"
    ∧ reportContentOf "\x7b\"output\":\"\"\x7d" ≠ "" :=
  ⟨rfl, rfl, by decide⟩

/-- Claim C4: when the webhook call fails (rejected fetch or non-2xx
response), `runReportNow` persists no execution row, sets a user-visible
error string, and clears the running-set entry for the id. -/
theorem C4_failed_webhook (u : UserInfo) (userReports : List UserReport)
    (running : List String) (error0 : Option String) (id : String)
    (report : UserReport) (fetch : FetchOutcome) (insertErr : Option String)
    (hfind : userReports.find? (fun r => r.id == id) = some report)
    (hfail : (∃ msg, fetch = .error msg) ∨ (∃ resp, fetch = .ok resp ∧ resp.ok = false)) :
    ((runReportNow_main (some u) true userReports running error0 id fetch insertErr).effects.all
        (fun e => !e.isInsert) = true)
    ∧ (runReportNow_main (some u) true userReports running error0 id fetch
        insertErr).error.isSome = true
    ∧ id ∉ (runReportNow_main (some u) true userReports running error0 id fetch
        insertErr).running := by
  rcases hfail with ⟨msg, rfl⟩ | ⟨resp, rfl, hnok⟩
  · unfold runReportNow_main
    rw [hfind]
    exact ⟨by simp [Effect.isInsert], rfl, removeId_not_mem _ _⟩
  · unfold runReportNow_main
    rw [hfind]
    simp only [hnok, Bool.not_false, Bool.not_true, reduceIte]
    exact ⟨by simp [Effect.isInsert], rfl, removeId_not_mem _ _⟩

/-- Witness for C4: a concrete 500 response — the only effect is the POST, an
error is surfaced, and `r1` is no longer marked as running. -/
theorem C4_failed_webhook_witness :
    ([sampleReport].find? (fun r => r.id == "r1") = some sampleReport)
    ∧ ((runReportNow_main (some sampleUser) true [sampleReport] [] none "r1"
          (.ok errResp) none).effects.all (fun e => !e.isInsert) = true)
    ∧ (runReportNow_main (some sampleUser) true [sampleReport] [] none "r1"
        (.ok errResp) none).error.isSome = true
    ∧ "r1" ∉ (runReportNow_main (some sampleUser) true [sampleReport] [] none "r1"
        (.ok errResp) none).running := by
  have h := C4_failed_webhook sampleUser [sampleReport] [] none "r1" sampleReport
    (.ok errResp) none (by decide) (Or.inr ⟨errResp, rfl, by decide⟩)
  exact ⟨by decide, h.1, h.2.1, h.2.2⟩

/-- Claim C5: `updateReport` and `deleteReport` touch only rows matching both
the given id and the caller's user id; every other row — in particular
every row owned by another user, even under a guessed id — is unchanged. -/
theorem C5_owner_scoping (u : UserInfo) (userReports : List UserReport) (id : String)
    (upd : ReportUpdates) (nowUtc : Int) (nowIso : String) :
    ((updateReportOp (some u) userReports id upd nowUtc nowIso).reports.filter
        (fun r => !(r.id == id && r.user_id == u.id))
      = userReports.filter (fun r => !(r.id == id && r.user_id == u.id)))
    ∧ ((deleteReportOp (some u) userReports id).filter
        (fun r => !(r.id == id && r.user_id == u.id))
      = userReports.filter (fun r => !(r.id == id && r.user_id == u.id)))
    ∧ (∀ r ∈ userReports, r.user_id ≠ u.id →
        r ∈ deleteReportOp (some u) userReports id) := by
  refine ⟨?_, ?_, ?_⟩
  · unfold updateReportOp
    cases hf : updateNextRunField userReports id upd nowUtc with
    | none => rfl
    | some fld =>
      apply filter_map_frame
      · intro a ha
        have hc : (a.id == id && a.user_id == u.id) = false := by
          revert ha
          cases a.id == id && a.user_id == u.id <;> simp
        simp [hc]
      · intro a
        by_cases hc : (a.id == id && a.user_id == u.id) = true
        · simp only [hc, if_pos]
          have h1 : (applyReportUpdates a upd fld nowIso).id = a.id := rfl
          have h2 : (applyReportUpdates a upd fld nowIso).user_id = a.user_id := rfl
          rw [h1, h2, hc]
        · simp [hc]
  · unfold deleteReportOp
    rw [List.filter_filter]
    congr 1
    funext r
    exact Bool.and_self _
  · intro r hr hne
    unfold deleteReportOp
    refine List.mem_filter.mpr ⟨hr, ?_⟩
    have : (r.user_id == u.id) = false := beq_eq_false_iff_ne.mpr hne
    simp [this]

/-- Witness for C5: another user's report, addressed by its own (guessed) id,
survives a delete issued by `sampleUser`. -/
theorem C5_owner_scoping_witness :
    otherUserReport ∈ [sampleReport, otherUserReport]
    ∧ otherUserReport.user_id ≠ sampleUser.id
    ∧ otherUserReport ∈ deleteReportOp (some sampleUser) [sampleReport, otherUserReport] "r2" :=
  ⟨by decide, by decide,
    (C5_owner_scoping sampleUser [sampleReport, otherUserReport] "r2" {} 0 "t").2.2
      otherUserReport (by decide) (by decide)⟩

/-- Helper: when the recompute condition is false and the update does not
carry its own `next_run_at` key, every row keeps its stored `next_run_at`. -/
theorem update_no_recompute_preserves (u : UserInfo) (userReports : List UserReport)
    (id : String) (upd : ReportUpdates) (nowUtc : Int) (nowIso : String)
    (hcond : updateRecomputes upd = false) (hkey : upd.next_run_at = none) :
    List.Forall₂ (fun x y => y.next_run_at = x.next_run_at) userReports
      (updateReportOp (some u) userReports id upd nowUtc nowIso).reports := by
  have hf : updateNextRunField userReports id upd nowUtc = some none := by
    unfold updateNextRunField
    rw [hcond, hkey]
    rfl
  unfold updateReportOp
  rw [hf]
  rw [List.forall₂_map_right_iff]
  rw [List.forall₂_same]
  intro x _
  by_cases hc : (x.id == id && x.user_id == u.id) = true
  · simp only [hc, if_pos]
    rfl
  · simp [hc]

/-- Claim C7 (amended): `next_run_at` is recomputed exactly when the update
object itself carries `schedule_type = 'scheduled'` together with a truthy
`schedule_frequency` or `schedule_time`; any other update — editing only
title or prompt, toggling `is_active`, and even one that changes
`schedule_time` without also sending `schedule_type` — leaves the stored
`next_run_at` unchanged (when it does not explicitly override it), while a
qualifying update stores the freshly computed instant on the matched
row. -/
theorem C7_recompute_condition (u : UserInfo) (userReports : List UserReport)
    (id : String) (upd : ReportUpdates) (nowUtc : Int) (nowIso : String)
    (b : Bool) (r : UserReport) (h m : Nat) :
    (updateRecomputes upd = false → upd.next_run_at = none →
      List.Forall₂ (fun x y => y.next_run_at = x.next_run_at) userReports
        (updateReportOp (some u) userReports id upd nowUtc nowIso).reports)
    ∧ List.Forall₂ (fun x y => y.next_run_at = x.next_run_at) userReports
        (toggleReportActive (some u) userReports id b nowUtc nowIso).reports
    ∧ (updateRecomputes upd = true →
       userReports.find? (fun x => x.id == id) = some r →
       parseScheduleTime (jsOrStr upd.schedule_time r.schedule_time) = some (h, m) →
       ∀ y ∈ (updateReportOp (some u) userReports id upd nowUtc nowIso).reports,
         y.id = id → y.user_id = u.id →
         y.next_run_at = some (isoOfMinutes (calcNextRunLocal nowUtc h m))) := by
  refine ⟨?_, ?_, ?_⟩
  · intro hcond hkey
    exact update_no_recompute_preserves u userReports id upd nowUtc nowIso hcond hkey
  · exact update_no_recompute_preserves u userReports id { is_active := some b }
      nowUtc nowIso rfl rfl
  · intro hcond hfind hparse y hy hid huid
    have hf : updateNextRunField userReports id upd nowUtc
        = some (some (some (isoOfMinutes (calcNextRunLocal nowUtc h m)))) := by
      unfold updateNextRunField
      rw [hcond, hfind]
      simp only [if_pos, hparse]
    unfold updateReportOp at hy
    rw [hf] at hy
    obtain ⟨x, hx, hgx⟩ := List.mem_map.mp hy
    by_cases hc : (x.id == id && x.user_id == u.id) = true
    · rw [if_pos hc] at hgx
      rw [← hgx]
      rfl
    · rw [if_neg hc] at hgx
      exfalso
      apply hc
      rw [hgx]
      have h1 : (y.id == id) = true := beq_iff_eq.mpr hid
      have h2 : (y.user_id == u.id) = true := beq_iff_eq.mpr huid
      rw [h1, h2]
      rfl

/-- Witness for C7: toggling `is_active` keeps `next_run_at`; an update
carrying `schedule_type='scheduled'` and a new `schedule_time` stores the
freshly computed instant. -/
theorem C7_recompute_condition_witness :
    (updateRecomputes { schedule_time := some "09:00" } = false)
    ∧ List.Forall₂ (fun x y => y.next_run_at = x.next_run_at) [sampleReport]
        (updateReportOp (some sampleUser) [sampleReport] "r1"
          { schedule_time := some "09:00" }
          (daysFromCivil 2025 6 15 * 1440 + 10 * 60) "now").reports
    ∧ List.Forall₂ (fun x y => y.next_run_at = x.next_run_at) [sampleReport]
        (toggleReportActive (some sampleUser) [sampleReport] "r1" false
          (daysFromCivil 2025 6 15 * 1440 + 10 * 60) "now").reports
    ∧ (updateRecomputes { schedule_type := some .scheduled, schedule_time := some "09:00" }
        = true)
    ∧ (∀ y ∈ (updateReportOp (some sampleUser) [sampleReport] "r1"
          { schedule_type := some .scheduled, schedule_time := some "09:00" }
          (daysFromCivil 2025 6 15 * 1440 + 10 * 60) "now").reports,
        y.id = "r1" → y.user_id = "u1" →
        y.next_run_at = some (isoOfMinutes
          (calcNextRunLocal (daysFromCivil 2025 6 15 * 1440 + 10 * 60) 9 0))) := by
  refine ⟨by decide, ?_, ?_, by decide, ?_⟩
  · exact (C7_recompute_condition sampleUser [sampleReport] "r1"
      { schedule_time := some "09:00" } (daysFromCivil 2025 6 15 * 1440 + 10 * 60) "now"
      false sampleReport 9 0).1 (by decide) rfl
  · exact (C7_recompute_condition sampleUser [sampleReport] "r1"
      { schedule_time := some "09:00" } (daysFromCivil 2025 6 15 * 1440 + 10 * 60) "now"
      false sampleReport 9 0).2.1
  · exact (C7_recompute_condition sampleUser [sampleReport] "r1"
      { schedule_type := some .scheduled, schedule_time := some "09:00" }
      (daysFromCivil 2025 6 15 * 1440 + 10 * 60) "now" false sampleReport 9 0).2.2
      (by decide) (by decide) (by decide)

/-- Claim C7 counterexample: an update that changes `schedule_time` of a
scheduled report — a schedule-relevant field — without also sending
`schedule_type` does not recompute `next_run_at`: the stored value survives
although a fresh computation would differ. -/
theorem C7_counterexample :
    sampleReport.schedule_type = ScheduleType.scheduled
    ∧ sampleReport.schedule_time = "07:00"
    ∧ ((updateReportOp (some sampleUser) [sampleReport] "r1"
          { schedule_time := some "09:00" }
          (daysFromCivil 2025 6 15 * 1440 + 10 * 60) "2025-06-15T10:00:00.000Z").reports.map
        (fun r => (r.schedule_time, r.next_run_at)))
      = [("09:00", some "2025-06-15T11:00:00.000Z")]
    ∧ (some "2025-06-15T11:00:00.000Z" : Option String)
        ≠ some (isoOfMinutes
            (calcNextRunLocal (daysFromCivil 2025 6 15 * 1440 + 10 * 60) 9 0)) := by
  decide

/-- Claim C8: the periodic eligibility check (invoked every 60 seconds by
`ReportsView`) never selects a `manual` config, and never selects a
`scheduled` config whose `is_active` is false: the placeholder body selects
no config at all, so no reachable state triggers such an execution. -/
theorem C8_eligibility_check (userReports : List UserReport) :
    (checkScheduledReports userReports).all
      (fun r => !(r.schedule_type == ScheduleType.manual)
        && !(r.schedule_type == ScheduleType.scheduled && !r.is_active)) = true :=
  rfl

/-- Claim C9: the serverless function fails with "not found" (HTTP 500,
`success:false`, no insert, no update) when no report matches both id and
user id; on the happy path it issues exactly one `mode='reports'`,
`message_type='astra'` chat insert with the metadata block, one
`last_run_at` update, and returns 200 `\x7bsuccess:true\x7d`; and every
response is either that success or an HTTP 500 carrying `success:false`
and an error message. -/
theorem C9_generate_report (hasSb hasGk : Bool) (tbl : List UserReport)
    (req : GenRequest) (gen : Except String String) (insertErr : Option String)
    (nowIso : String) :
    (hasSb = true → hasGk = true →
      singleRow (tbl.filter fun r => r.id == req.reportId && r.user_id == req.userId)
        = none →
      generateReportHandler hasSb hasGk tbl req gen insertErr nowIso
        = (⟨500, false, some "Report not found or access denied"⟩, []))
    ∧ (∀ report, hasSb = true → hasGk = true →
        singleRow (tbl.filter fun r => r.id == req.reportId && r.user_id == req.userId)
          = some report →
        ∀ text, gen = .ok text → insertErr = none →
        generateReportHandler hasSb hasGk tbl req gen insertErr nowIso
          = (⟨200, true, none⟩,
             [GenEffect.insertChat
                { user_id := req.userId, mode := "reports", message := text,
                  message_type := "astra", md_report_title := report.title,
                  md_report_schedule := report.schedule_time,
                  md_report_frequency := report.schedule_frequency,
                  md_is_manual_run := true, md_executed_at := nowIso,
                  md_visualization_mode :=
                    jsOrStr req.visualizationMode
                      (jsOrStr report.visualization_mode "text") },
              GenEffect.updateLastRun req.reportId nowIso]))
    ∧ (((generateReportHandler hasSb hasGk tbl req gen insertErr nowIso).1.status = 200
          ∧ (generateReportHandler hasSb hasGk tbl req gen insertErr nowIso).1.success
              = true)
        ∨ ((generateReportHandler hasSb hasGk tbl req gen insertErr nowIso).1.status = 500
          ∧ (generateReportHandler hasSb hasGk tbl req gen insertErr nowIso).1.success
              = false
          ∧ (generateReportHandler hasSb hasGk tbl req gen insertErr
              nowIso).1.error.isSome = true)) := by
  refine ⟨?_, ?_, ?_⟩
  · intro hsb hgk hnone
    subst hsb
    subst hgk
    unfold generateReportHandler
    rw [hnone]
    rfl
  · intro report hsb hgk hsome text hgen hins
    subst hsb
    subst hgk
    subst hgen
    subst hins
    unfold generateReportHandler
    rw [hsome]
    rfl
  · unfold generateReportHandler
    cases hasSb
    · exact Or.inr ⟨rfl, rfl, rfl⟩
    · cases hasGk
      · exact Or.inr ⟨rfl, rfl, rfl⟩
      · cases hsing : singleRow (tbl.filter fun r =>
            r.id == req.reportId && r.user_id == req.userId) with
        | none => exact Or.inr ⟨rfl, rfl, rfl⟩
        | some report =>
          cases gen with
          | error e => exact Or.inr ⟨rfl, rfl, rfl⟩
          | ok text =>
            cases insertErr with
            | none => exact Or.inl ⟨rfl, rfl⟩
            | some e => exact Or.inr ⟨rfl, rfl, rfl⟩

/-- Witness for C9: a matching report row yields the 200 success response
with the single tagged insert and the `last_run_at` update; a request with
the wrong user id yields the not-found 500 with no effects. -/
theorem C9_generate_report_witness :
    generateReportHandler true true [sampleReport]
        ⟨"u1", "r1", "Summarize the news", none⟩ (.ok "The report text") none "T0"
      = (⟨200, true, none⟩,
         [GenEffect.insertChat
            { user_id := "u1", mode := "reports", message := "The report text",
              message_type := "astra", md_report_title := "Daily news",
              md_report_schedule := "07:00", md_report_frequency := "daily",
              md_is_manual_run := true, md_executed_at := "T0",
              md_visualization_mode := "text" },
          GenEffect.updateLastRun "r1" "T0"])
    ∧ generateReportHandler true true [sampleReport]
        ⟨"u2", "r1", "Summarize the news", none⟩ (.ok "The report text") none "T0"
      = (⟨500, false, some "Report not found or access denied"⟩, []) := by
  constructor
  · have h := (C9_generate_report true true [sampleReport]
      ⟨"u1", "r1", "Summarize the news", none⟩ (.ok "The report text") none "T0").2.1
      sampleReport rfl rfl (by decide) "The report text" rfl rfl
    rw [h]
    rfl
  · exact (C9_generate_report true true [sampleReport]
      ⟨"u2", "r1", "Summarize the news", none⟩ (.ok "The report text") none "T0").1
      rfl rfl (by decide)

/-- Claim C10: `deleteReportMessage` can delete only chat rows matching the
given id, the caller's user id, and `mode='reports'` simultaneously; every
row of another mode or another user survives, whatever id is supplied. -/
theorem C10_delete_message_scope (u : UserInfo) (chats : List ChatRow)
    (messageId : String) :
    (∀ c ∈ chats, c ∉ deleteReportMessage (some u) chats messageId →
      c.id = messageId ∧ c.user_id = u.id ∧ c.mode = "reports")
    ∧ (∀ c ∈ chats, c.user_id ≠ u.id ∨ c.mode ≠ "reports" →
      c ∈ deleteReportMessage (some u) chats messageId) := by
  constructor
  · intro c hc hnot
    by_contra hcon
    apply hnot
    unfold deleteReportMessage
    refine List.mem_filter.mpr ⟨hc, ?_⟩
    rw [Bool.not_eq_true', Bool.and_eq_false_iff]
    by_cases h3 : c.mode = "reports"
    · refine Or.inl ?_
      rw [Bool.and_eq_false_iff]
      by_cases h1 : c.id = messageId
      · by_cases h2 : c.user_id = u.id
        · exact absurd ⟨h1, h2, h3⟩ hcon
        · exact Or.inr (beq_eq_false_iff_ne.mpr h2)
      · exact Or.inl (beq_eq_false_iff_ne.mpr h1)
    · exact Or.inr (beq_eq_false_iff_ne.mpr h3)
  · intro c hc hor
    unfold deleteReportMessage
    refine List.mem_filter.mpr ⟨hc, ?_⟩
    rw [Bool.not_eq_true', Bool.and_eq_false_iff]
    rcases hor with h | h
    · refine Or.inl ?_
      rw [Bool.and_eq_false_iff]
      exact Or.inr (beq_eq_false_iff_ne.mpr h)
    · exact Or.inr (beq_eq_false_iff_ne.mpr h)

/-- Witness for C10: `sampleUser`'s private-mode message survives a delete
that addresses its very id through the reports-scoped operation. -/
theorem C10_delete_message_scope_witness :
    (⟨"m2", "u1", "private", "user", "private text"⟩ : ChatRow) ∈ sampleChats
    ∧ ((⟨"m2", "u1", "private", "user", "private text"⟩ : ChatRow).mode ≠ "reports")
    ∧ (⟨"m2", "u1", "private", "user", "private text"⟩ : ChatRow)
        ∈ deleteReportMessage (some sampleUser) sampleChats "m2" :=
  ⟨by decide, by decide,
    (C10_delete_message_scope sampleUser sampleChats "m2").2
      ⟨"m2", "u1", "private", "user", "private text"⟩ (by decide)
      (Or.inr (by decide))⟩

end Astra
